import Mathlib

/-!
Verification of the historical-candle ingestion pipeline of
`examples/engine_with_historic_candles.rs` (barter-rs).

UTC instants are represented as `Int` milliseconds since the Unix epoch:
every instant the program constructs has whole-millisecond precision
(`from_timestamp_opt` with zero nanoseconds, or `timestamp_millis_opt`).
Rust `f64` fields are represented as Lean `Float`; the program only copies
them, it never computes with them.  Fallible operations (`unwrap` on a
`Result`/`Option`, which aborts the load) are modelled with `Option`:
`none` is the aborted load, so an aborted load produces no events.
-/

namespace BarterSpec

/-! ## chrono semantics used by the example

The example calls `chrono` (an external date-time crate).  The constants
below are chrono 0.4's representable range: `NaiveDate` years span
-262143 ..= 262143, giving the timestamp bounds used by
`NaiveDateTime::from_timestamp_opt` and `TimeZone::timestamp_millis_opt`. -/

/-- chrono: smallest representable timestamp in whole seconds
(`-262143-01-01T00:00:00`). -/
def CHRONO_MIN_SECS : Int := -8334601228800

/-- chrono: largest representable timestamp in whole seconds
(`262143-12-31T23:59:59`). -/
def CHRONO_MAX_SECS : Int := 8210298412799

/-- chrono: smallest representable timestamp in milliseconds. -/
def CHRONO_MIN_MS : Int := CHRONO_MIN_SECS * 1000

/-- chrono: largest representable timestamp in milliseconds
(the max second plus `.999`). -/
def CHRONO_MAX_MS : Int := CHRONO_MAX_SECS * 1000 + 999

/-- chrono `NaiveDateTime::from_timestamp_opt(secs, 0)` followed by
`DateTime::<Utc>::from_utc`: yields the UTC instant at `secs` whole seconds
(as milliseconds), or `none` when `secs` is outside the representable range. -/
def from_timestamp_opt (secs : Int) : Option Int :=
  if CHRONO_MIN_SECS ≤ secs ∧ secs ≤ CHRONO_MAX_SECS then some (secs * 1000) else none

/-- chrono `Utc.timestamp_millis_opt(ms)`: the UTC instant at `ms`
milliseconds, or `none` (`LocalResult::None`) when out of range. -/
def timestamp_millis_opt (ms : Int) : Option Int :=
  if CHRONO_MIN_MS ≤ ms ∧ ms ≤ CHRONO_MAX_MS then some ms else none

/-- Rust `x as i64` applied to a `u64` value (`x < 2^64`): a wrapping cast,
values at or above `2^63` come out negative. -/
def u64_as_i64 (x : Nat) : Int :=
  if x < 2 ^ 63 then (x : Int) else (x : Int) - 2 ^ 64

/-! ## Data model -/

/-- `barter_data::subscription::candle::Candle`, the canonical candle the
example normalizes into (fields as used by the example; `close_time` in
milliseconds since epoch). -/
structure Candle where
  close_time : Int
  «open» : Float
  high : Float
  low : Float
  close : Float
  volume : Float
  trade_count : Nat
deriving Repr

/-- The 12-field Binance kline CSV schema (`struct BinanceCandle`,
lines 141-155).  `u64` fields are `Nat` values below `2^64`. -/
structure BinanceCandle where
  open_time : Nat
  «open» : Float
  high : Float
  low : Float
  close : Float
  volume : Float
  close_time : Nat
  quote_asset_volume : Float
  number_of_trades : Nat
  taker_buy_base_asset_volume : Float
  taker_buy_quote_asset_volume : Float
  ignore : Float
deriving Repr

/-- `barter_integration::model::InstrumentKind` (only `Spot` is used). -/
inductive InstrumentKind
  | spot
deriving Repr, DecidableEq

/-- `barter_integration::model::Instrument`. -/
structure Instrument where
  base : String
  quote : String
  kind : InstrumentKind
deriving Repr, DecidableEq

/-- `barter_data::event::DataKind`: the tagged market-data payload.  The
example only ever constructs the `Candle` variant. -/
inductive DataKind
  | candle (c : Candle)
deriving Repr

/-- `barter_data::event::MarketEvent` as the example populates it
(timestamps in milliseconds since epoch). -/
structure MarketEvent (Kind : Type) where
  exchange_time : Int
  received_time : Int
  exchange : String
  instrument : Instrument
  kind : Kind
deriving Repr

/-- The close time of the candle embedded in a `DataKind` payload. -/
def DataKind.closeTime : DataKind → Option Int
  | .candle c => some c.close_time

/-! ## Normalization (lines 157-174): `impl Into<Candle> for BinanceCandle` -/

/-- `impl Into<Candle> for BinanceCandle` (lines 157-174): the candle's
`close_time` comes from `from_timestamp_opt(self.close_time as i64 / 1000, 0)`
(`i64` division truncates toward zero) and the inner `.unwrap()` aborts on
`none`; the remaining fields are copied. -/
def BinanceCandle.into (self : BinanceCandle) : Option Candle := do
  let close_time ← from_timestamp_opt (Int.tdiv (u64_as_i64 self.close_time) 1000)
  pure { close_time := close_time
         «open» := self.«open»
         high := self.high
         low := self.low
         close := self.close
         volume := self.volume
         trade_count := self.number_of_trades }

/-! ## CSV load (lines 176-195): `load_csv_market_event_candles` -/

/-- One iteration of the CSV loop body (lines 186-192) on an already
deserialized record: `exchange_time` is
`Utc.timestamp_millis_opt(record.close_time as i64).unwrap()`,
`received_time` the wall clock `now` at wrap time, the `(exchange,
instrument)` pair is fixed, and `kind` holds `record.into()`.  Either
`unwrap` aborting gives `none`. -/
def convertRow (record : BinanceCandle) (now : Int) : Option (MarketEvent DataKind) := do
  let ts ← timestamp_millis_opt (u64_as_i64 record.close_time)
  let c ← record.into
  pure { exchange_time := ts
         received_time := now
         exchange := "binance"
         instrument := ⟨"btc", "usdt", .spot⟩
         kind := .candle c }

/-- The CSV loop of `load_csv_market_event_candles` (lines 182-194) over
already deserialized records, `i` the index of the current row (the wall
clock `now` is read once per row); any aborted row aborts the whole load. -/
def loadCsvRecords (now : Nat → Int) : List BinanceCandle → Nat → Option (List (MarketEvent DataKind))
  | [], _ => some []
  | record :: rest, i => do
      let ev ← convertRow record (now i)
      let evs ← loadCsvRecords now rest (i + 1)
      pure (ev :: evs)

/-! ## Row deserialization

The `csv` + `serde` row decoding (`candles.deserialize()` at line 183) is
external-crate behaviour.  Modelled from the spec: "deserializes each row
independently into the 12-field exchange schema; a row that fails to parse
surfaces a fatal error for the whole load", with integer fields parsed as
Rust `u64` and price fields as Rust `f64`. -/

/-- Digits of a `Nat` numeral. -/
def parseDigits : List Char → Option Nat
  | [] => none
  | cs => cs.foldlM (fun acc c => if c.isDigit then some (acc * 10 + (c.toNat - 48)) else none) 0

/-- Modelled from the spec: Rust `u64` parsing (serde/csv field decode, not
under src/) — an optional leading `+`, then decimal digits, value below `2^64`. -/
def parseU64 (s : String) : Option Nat := do
  let cs := match s.toList with
    | '+' :: rest => rest
    | cs => cs
  let n ← parseDigits cs
  if n < 2 ^ 64 then some n else none

/-- Mantissa and decimal-exponent accumulation for `f64` parsing: digits
before and optionally after a decimal point. -/
def parseMantissa : List Char → Option (Nat × Nat × List Char)
  | cs =>
    let intPart := cs.takeWhile Char.isDigit
    let rest := cs.dropWhile Char.isDigit
    match rest with
    | '.' :: rest' =>
        let fracPart := rest'.takeWhile Char.isDigit
        let rest'' := rest'.dropWhile Char.isDigit
        if intPart.isEmpty ∧ fracPart.isEmpty then none
        else do
          let m ← parseDigits (if (intPart ++ fracPart).isEmpty then ['0'] else intPart ++ fracPart)
          some (m, fracPart.length, rest'')
    | _ =>
        if intPart.isEmpty then none
        else do
          let m ← parseDigits intPart
          some (m, 0, rest)

/-- Modelled from the spec: Rust `f64` parsing (serde/csv field decode, not
under src/) — optional sign, decimal mantissa with optional fraction,
optional exponent, or the special forms `inf`/`infinity`/`nan`
(case-insensitive).  A field that matches none of these fails to parse. -/
def parseF64 (s : String) : Option Float := do
  let (neg, cs) := match s.toList with
    | '-' :: rest => (true, rest)
    | '+' :: rest => (false, rest)
    | cs => (false, cs)
  let lower := String.mk (cs.map Char.toLower)
  if lower = "inf" ∨ lower = "infinity" then
    some (if neg then (-1.0) / 0.0 else 1.0 / 0.0)
  else if lower = "nan" then
    some (0.0 / 0.0)
  else do
    let (m, frac, rest) ← parseMantissa cs
    let e : Int ← match rest with
      | [] => some (0 : Int)
      | 'e' :: rest' | 'E' :: rest' => do
          let (eneg, ds) := match rest' with
            | '-' :: ds => (true, ds)
            | '+' :: ds => (false, ds)
            | ds => (false, ds)
          let n ← parseDigits ds
          some (if eneg then -(n : Int) else (n : Int))
      | _ => none
    let exp : Int := e - (frac : Int)
    let mag : Float :=
      if 0 ≤ exp then Float.ofScientific m false exp.toNat
      else Float.ofScientific m true (-exp).toNat
    some (if neg then -mag else mag)

/-- Modelled from the spec: serde row decode into `BinanceCandle` (not under
src/) — exactly 12 fields in the fixed order, each parsed per its schema
type; any wrong field count or unparsable field fails the row. -/
def deserializeRow (fields : List String) : Option BinanceCandle :=
  match fields with
  | [f0, f1, f2, f3, f4, f5, f6, f7, f8, f9, f10, f11] => do
      let open_time ← parseU64 f0
      let o ← parseF64 f1
      let h ← parseF64 f2
      let l ← parseF64 f3
      let c ← parseF64 f4
      let v ← parseF64 f5
      let close_time ← parseU64 f6
      let qav ← parseF64 f7
      let n ← parseU64 f8
      let tb ← parseF64 f9
      let tq ← parseF64 f10
      let ig ← parseF64 f11
      pure { open_time := open_time, «open» := o, high := h, low := l, close := c,
             volume := v, close_time := close_time, quote_asset_volume := qav,
             number_of_trades := n, taker_buy_base_asset_volume := tb,
             taker_buy_quote_asset_volume := tq, ignore := ig }
  | _ => none

/-- `load_csv_market_event_candles` (lines 176-195) on the file's rows (each
row its comma-separated fields): deserialize each row (`result.unwrap()`,
aborting the load on a bad row), then convert it as in `convertRow`. -/
def load_csv_market_event_candles (now : Nat → Int) : List (List String) → Nat → Option (List (MarketEvent DataKind))
  | [], _ => some []
  | row :: rest, i => do
      let record ← deserializeRow row
      let ev ← convertRow record (now i)
      let evs ← load_csv_market_event_candles now rest (i + 1)
      pure (ev :: evs)

/-! ## JSON load (lines 123-139): `load_json_market_event_candles` -/

/-- `load_json_market_event_candles` (lines 123-139) after the JSON parse:
each already-canonical candle is wrapped into a `MarketEvent` with
`exchange_time = candle.close_time`, the wall clock as `received_time`, and
the fixed exchange/instrument pair. -/
def load_json_market_event_candles (now : Nat → Int) : List Candle → Nat → List (MarketEvent DataKind)
  | [], _ => []
  | candle :: rest, i =>
      { exchange_time := candle.close_time
        received_time := now i
        exchange := "binance"
        instrument := ⟨"btc", "usdt", .spot⟩
        kind := .candle candle } :: load_json_market_event_candles now rest (i + 1)

/-! ## Historical Feed -/

/-- `barter::data::Feed`: the result of one pull from a market feed. -/
inductive Feed (α : Type) where
  | next (a : α)
  | finished
deriving Repr, DecidableEq

/-- Modelled from the spec: `barter::data::historical::MarketFeed` is
repository code not under src/ (the example only calls
`historical::MarketFeed::new`).  Spec 4.4 / 3: wraps a fully materialized
ordered sequence of market events behind a monotonically advancing cursor,
with states `Loaded(cursor)` and `Exhausted` (cursor past the end). -/
structure MarketFeed (α : Type) where
  market_events : List α
  cursor : Nat

/-- Modelled from the spec: `MarketFeed::new` wraps the materialized event
sequence with the cursor at the start. -/
def MarketFeed.new (events : List α) : MarketFeed α := ⟨events, 0⟩

/-- Modelled from the spec: the single pull operation of the Historical
Feed — "give me the next event or signal exhaustion"; the cursor advances on
a hit and exhaustion changes nothing. -/
def MarketFeed.pull (f : MarketFeed α) : Feed α × MarketFeed α :=
  match f.market_events.get? f.cursor with
  | some e => (Feed.next e, ⟨f.market_events, f.cursor + 1⟩)
  | none => (Feed.finished, f)

/-- The feed state after `k` successive pulls. -/
def MarketFeed.afterPulls (f : MarketFeed α) : Nat → MarketFeed α
  | 0 => f
  | k + 1 => (MarketFeed.afterPulls f k).pull.2

/-- The result of the `(k+1)`-th pull (0-indexed `k`) from a feed. -/
def MarketFeed.pullAt (f : MarketFeed α) (k : Nat) : Feed α :=
  (f.afterPulls k).pull.1

/-- A feed in the `Exhausted` state: the cursor is past every event. -/
def MarketFeed.Exhausted (f : MarketFeed α) : Prop :=
  f.market_events.length ≤ f.cursor

/-! ## Event Sink Loop (lines 199-241): `listen_to_engine_events` -/

/-- Modelled from the spec: the payloads of engine-emitted events are
external `barter` types not under src/; the sink loop only hands them to its
observation action (a `Debug` print), so each is abstracted to its debug
rendering. -/
structure Payload where
  debug : String
deriving Repr, DecidableEq

/-- `barter::event::Event`: the closed set of ten engine event kinds matched
by `listen_to_engine_events` (payloads abstracted, `OrderUpdate` carries
none in the source match). -/
inductive Event where
  | market (e : Payload)
  | signal (s : Payload)
  | signalForceExit (s : Payload)
  | orderNew (o : Payload)
  | orderUpdate
  | fill (f : Payload)
  | positionNew (p : Payload)
  | positionUpdate (p : Payload)
  | positionExit (p : Payload)
  | balance (b : Payload)
deriving Repr, DecidableEq

/-- One arm of the `match` in `listen_to_engine_events` (lines 201-239): the
observation action performed for one received event — `some line` when the
arm prints the payload's debug rendering, `none` when the arm's body is
empty.  Every one of the ten variants is matched. -/
def handleEvent : Event → Option String
  | .market _ => none
  | .signal s => some s.debug
  | .signalForceExit _ => none
  | .orderNew o => some o.debug
  | .orderUpdate => none
  | .fill f => some f.debug
  | .positionNew p => some p.debug
  | .positionUpdate p => some p.debug
  | .positionExit p => some p.debug
  | .balance b => some b.debug

/-- `listen_to_engine_events` (lines 199-241): the `while let
Some(event) = event_rx.recv().await` loop.  The channel is modelled by the
finite list of events delivered before the producing side closes (FIFO);
the loop performs one observation per received event and returns exactly
when `recv` yields `None`, i.e. after the last delivered event.  The
returned list is the trace of observation actions, in delivery order. -/
def listen_to_engine_events : List Event → List (Option String)
  | [] => []
  | event :: rest => handleEvent event :: listen_to_engine_events rest

/-! ## Concrete inputs used by witnesses and counterexamples -/

/-- A fixed wall clock for concrete runs. -/
def now0 : Nat → Int := fun _ => 0

/-- A decoded Binance record with the given `close_time` and fixed
representative values for every other field. -/
def mkRecord (ct : Nat) : BinanceCandle :=
  { open_time := 0, «open» := 100.0, high := 105.0, low := 95.0, close := 102.0,
    volume := 1.5, close_time := ct, quote_asset_volume := 0.0, number_of_trades := 7,
    taker_buy_base_asset_volume := 0.0, taker_buy_quote_asset_volume := 0.0, ignore := 0.0 }

/-- The candle `(mkRecord ct).into` produces when `ct` is in range:
its close time is `ct` truncated to whole seconds. -/
def mkCandle (ms : Int) : Candle :=
  { close_time := ms, «open» := 100.0, high := 105.0, low := 95.0, close := 102.0,
    volume := 1.5, trade_count := 7 }

/-! ## Helper lemmas -/

/-- `Int.tdiv` on natural casts is natural division. -/
theorem tdiv_natCast (m n : Nat) : Int.tdiv (m : Int) (n : Int) = ((m / n : Nat) : Int) := rfl

/-- Unfolding a successful `from_timestamp_opt`. -/
theorem from_timestamp_opt_eq_some {s t : Int} (h : from_timestamp_opt s = some t) :
    t = s * 1000 ∧ CHRONO_MIN_SECS ≤ s ∧ s ≤ CHRONO_MAX_SECS := by
  by_cases hc : CHRONO_MIN_SECS ≤ s ∧ s ≤ CHRONO_MAX_SECS
  · rw [from_timestamp_opt, if_pos hc] at h
    exact ⟨(Option.some.inj h).symm, hc⟩
  · rw [from_timestamp_opt, if_neg hc] at h
    cases h

/-- Unfolding a successful `timestamp_millis_opt`. -/
theorem timestamp_millis_opt_eq_some {ms t : Int} (h : timestamp_millis_opt ms = some t) :
    t = ms ∧ CHRONO_MIN_MS ≤ ms ∧ ms ≤ CHRONO_MAX_MS := by
  by_cases hc : CHRONO_MIN_MS ≤ ms ∧ ms ≤ CHRONO_MAX_MS
  · rw [timestamp_millis_opt, if_pos hc] at h
    exact ⟨(Option.some.inj h).symm, hc⟩
  · rw [timestamp_millis_opt, if_neg hc] at h
    cases h

/-- A successful `BinanceCandle.into` yields exactly the projected candle,
its close time the truncated-to-seconds source close time. -/
theorem into_eq_some {r : BinanceCandle} {c : Candle} (h : r.into = some c) :
    c = { close_time := Int.tdiv (u64_as_i64 r.close_time) 1000 * 1000,
          «open» := r.«open», high := r.high, low := r.low, close := r.close,
          volume := r.volume, trade_count := r.number_of_trades } := by
  cases hts : from_timestamp_opt (Int.tdiv (u64_as_i64 r.close_time) 1000) with
  | none => rw [BinanceCandle.into, hts] at h; cases h
  | some t =>
      rw [BinanceCandle.into, hts] at h
      obtain ⟨ht, -⟩ := from_timestamp_opt_eq_some hts
      cases h
      rw [ht]

/-- Unfolding a successful `convertRow`. -/
theorem convertRow_eq_some {r : BinanceCandle} {t : Int} {ev : MarketEvent DataKind}
    (h : convertRow r t = some ev) :
    ∃ c, r.into = some c ∧
      timestamp_millis_opt (u64_as_i64 r.close_time) = some ev.exchange_time ∧
      ev.received_time = t ∧ ev.exchange = "binance" ∧
      ev.instrument = ⟨"btc", "usdt", .spot⟩ ∧ ev.kind = .candle c := by
  cases hts : timestamp_millis_opt (u64_as_i64 r.close_time) with
  | none => rw [convertRow, hts] at h; cases h
  | some ts =>
      cases hc : r.into with
      | none => rw [convertRow, hts] at h; rw [hc] at h; cases h
      | some c =>
          simp only [convertRow, hts, hc, Option.bind_eq_bind, Option.some_bind,
            Option.pure_def, Option.some.injEq] at h
          subst h
          exact ⟨c, rfl, rfl, rfl, rfl, rfl, rfl⟩

/-- A record every conversion of which aborts makes the whole CSV loop
abort, wherever it sits in the input. -/
theorem loadCsvRecords_none_of_mem (now : Nat → Int) (r : BinanceCandle)
    (hr : ∀ t, convertRow r t = none) :
    ∀ (records : List BinanceCandle) (i : Nat), r ∈ records →
      loadCsvRecords now records i = none
  | [], _, hmem => absurd hmem (List.not_mem_nil r)
  | a :: rest, i, hmem => by
      rcases List.mem_cons.mp hmem with heq | hmem'
      · subst heq
        rw [loadCsvRecords, hr (now i)]
        rfl
      · have ih := loadCsvRecords_none_of_mem now r hr rest (i + 1) hmem'
        cases hconv : convertRow a (now i) with
        | none => rw [loadCsvRecords, hconv]; rfl
        | some ev => rw [loadCsvRecords, hconv, ih]; rfl

/-- A row that fails to deserialize makes the whole string-level CSV load
abort, wherever it sits in the input. -/
theorem load_csv_none_of_mem (now : Nat → Int) (row : List String)
    (hrow : deserializeRow row = none) :
    ∀ (rows : List (List String)) (i : Nat), row ∈ rows →
      load_csv_market_event_candles now rows i = none
  | [], _, hmem => absurd hmem (List.not_mem_nil row)
  | a :: rest, i, hmem => by
      rcases List.mem_cons.mp hmem with heq | hmem'
      · subst heq
        rw [load_csv_market_event_candles, hrow]
        rfl
      · have ih := load_csv_none_of_mem now row hrow rest (i + 1) hmem'
        cases hdes : deserializeRow a with
        | none => rw [load_csv_market_event_candles, hdes]; rfl
        | some rec =>
            cases hconv : convertRow rec (now i) with
            | none => simp [load_csv_market_event_candles, hdes, hconv]
            | some ev => simp [load_csv_market_event_candles, hdes, hconv, ih]

/-- A successful CSV load's exchange times are exactly the wrapped-cast
close times of the records, in order. -/
theorem loadCsvRecords_map_exchange_time (now : Nat → Int) :
    ∀ (records : List BinanceCandle) (i : Nat) (evs : List (MarketEvent DataKind)),
      loadCsvRecords now records i = some evs →
      evs.map MarketEvent.exchange_time = records.map (fun r => u64_as_i64 r.close_time)
  | [], _, evs, h => by
      rw [loadCsvRecords] at h
      cases h
      rfl
  | r :: rest, i, evs, h => by
      cases hconv : convertRow r (now i) with
      | none => rw [loadCsvRecords, hconv] at h; cases h
      | some ev =>
          cases hrec : loadCsvRecords now rest (i + 1) with
          | none => rw [loadCsvRecords, hconv, hrec] at h; cases h
          | some evs' =>
              rw [loadCsvRecords, hconv, hrec] at h
              cases h
              have ih := loadCsvRecords_map_exchange_time now rest (i + 1) evs' hrec
              obtain ⟨c, -, hts, -⟩ := convertRow_eq_some hconv
              obtain ⟨hts', -⟩ := timestamp_millis_opt_eq_some hts
              simp only [List.map_cons, ih, List.cons.injEq]
              exact ⟨hts', trivial⟩

/-- `Int.tdiv` of a natural cast by the literal 1000. -/
theorem tdiv_cast_1000 (m : Nat) :
    Int.tdiv (m : Int) (1000 : Int) = ((m / 1000 : Nat) : Int) := rfl

/-- Membership in the JSON load's output: every produced event's embedded
candle close time is its exchange time (both are `candle.close_time`). -/
theorem load_json_mem_closeTime (now : Nat → Int) :
    ∀ (candles : List Candle) (i : Nat) (ev : MarketEvent DataKind),
      ev ∈ load_json_market_event_candles now candles i →
      ev.kind.closeTime = some ev.exchange_time
  | [], _, ev, hmem => absurd hmem (List.not_mem_nil ev)
  | c :: rest, i, ev, hmem => by
      rw [load_json_market_event_candles] at hmem
      rcases List.mem_cons.mp hmem with heq | hmem'
      · subst heq; rfl
      · exact load_json_mem_closeTime now rest (i + 1) ev hmem'

/-! ## C1 -/

/-- C1 counterexample: the claim says the canonical candle's `close_time`
equals the row's `close_time` milliseconds with zero sub-second truncation
error.  For the decoded row with `close_time = 1640995200500` ms the
normalization (`impl Into<Candle>`, which divides by 1000 before building a
whole-second timestamp) produces a candle whose `close_time` is
1640995200000 ms — the 500 ms sub-second part is truncated away. -/
theorem csv_close_time_subsecond_truncation_cex :
    ((mkRecord 1640995200500).into).map Candle.close_time = some 1640995200000 ∧
    (1640995200000 : Int) ≠ 1640995200500 := ⟨rfl, by decide⟩

/-- C1 (amended): for every decoded CSV row with `close_time` below `2^63`
that normalizes successfully, the canonical candle's `close_time` is the
row's millisecond value truncated to whole seconds (the sub-second
millisecond part is dropped); the conversion is lossless exactly when the
row's `close_time` is a whole multiple of 1000 ms. -/
theorem csv_close_time_truncated_to_whole_seconds (r : BinanceCandle) (c : Candle)
    (hlt : r.close_time < 2 ^ 63) (h : r.into = some c) :
    c.close_time = (r.close_time : Int) - ((r.close_time % 1000 : Nat) : Int) ∧
    (c.close_time = (r.close_time : Int) ↔ r.close_time % 1000 = 0) := by
  have hc := into_eq_some h
  have hclose : c.close_time = Int.tdiv (u64_as_i64 r.close_time) 1000 * 1000 := by rw [hc]
  have hu : u64_as_i64 r.close_time = (r.close_time : Int) := by rw [u64_as_i64, if_pos hlt]
  rw [hclose, hu, tdiv_cast_1000]
  constructor
  · omega
  · omega

/-- C1 witness: the amended theorem applied to the decoded row with
`close_time = 1640995500000` ms (a whole-second multiple): the candle's
close time equals the row's millisecond value. -/
theorem csv_close_time_truncated_to_whole_seconds_witness :
    (mkCandle 1640995500000).close_time = ((1640995500000 : Nat) : Int) :=
  (csv_close_time_truncated_to_whole_seconds (mkRecord 1640995500000)
      (mkCandle 1640995500000) (by decide) rfl).2.mpr (by decide)

/-! ## C2 -/

/-- C2 counterexample: the claim says every pipeline event's
`exchange_time` equals the `close_time` of the candle embedded in its
`kind`.  For the CSV row with `close_time = 1640995200500` ms the produced
event has `exchange_time = 1640995200500` (millisecond-precise,
`timestamp_millis_opt`) while the embedded candle's `close_time` is
1640995200000 (second-truncated by `impl Into<Candle>`): they differ. -/
theorem exchange_time_vs_candle_close_time_cex :
    (convertRow (mkRecord 1640995200500) 0).map
        (fun ev => (ev.exchange_time, ev.kind.closeTime)) =
      some (1640995200500, some 1640995200000) ∧
    (1640995200500 : Int) ≠ 1640995200000 := ⟨rfl, by decide⟩

/-- C2 (amended): every event of the JSON path has `exchange_time` equal to
the embedded candle's `close_time`; a CSV-path event satisfies this when
the row's `close_time` is below `2^63` and a whole multiple of 1000 ms
(otherwise the embedded candle's close time is the truncated-to-seconds
value and differs from the millisecond-precise `exchange_time`). -/
theorem exchange_time_matches_embedded_candle :
    (∀ (now : Nat → Int) (candles : List Candle) (i : Nat) (ev : MarketEvent DataKind),
        ev ∈ load_json_market_event_candles now candles i →
        ev.kind.closeTime = some ev.exchange_time) ∧
    (∀ (r : BinanceCandle) (t : Int) (ev : MarketEvent DataKind),
        r.close_time < 2 ^ 63 → r.close_time % 1000 = 0 → convertRow r t = some ev →
        ev.kind.closeTime = some ev.exchange_time) := by
  constructor
  · exact load_json_mem_closeTime
  · intro r t ev hlt hmod hconv
    obtain ⟨c, hinto, hts, -, -, -, hkind⟩ := convertRow_eq_some hconv
    obtain ⟨hts', -⟩ := timestamp_millis_opt_eq_some hts
    have hc := into_eq_some hinto
    have hclose : c.close_time = Int.tdiv (u64_as_i64 r.close_time) 1000 * 1000 := by rw [hc]
    have hu : u64_as_i64 r.close_time = (r.close_time : Int) := by rw [u64_as_i64, if_pos hlt]
    rw [hkind]
    simp only [DataKind.closeTime, Option.some.injEq]
    rw [hclose, hts', hu, tdiv_cast_1000]
    omega

/-- A JSON-path event used by the C2 witness: the wrapping of the
epoch-close candle. -/
def evJ : MarketEvent DataKind :=
  { exchange_time := 0, received_time := 0, exchange := "binance",
    instrument := ⟨"btc", "usdt", .spot⟩, kind := .candle (mkCandle 0) }

/-- A CSV-path event used by the C2 witness: the conversion of the decoded
row with `close_time = 1640995200000` ms. -/
def evC2 : MarketEvent DataKind :=
  { exchange_time := 1640995200000, received_time := 0, exchange := "binance",
    instrument := ⟨"btc", "usdt", .spot⟩, kind := .candle (mkCandle 1640995200000) }

/-- C2 witness: both parts of the amended theorem at concrete inputs — a
JSON candle with close time 0, and the CSV row with whole-second
`close_time = 1640995200000` ms. -/
theorem exchange_time_matches_embedded_candle_witness :
    evJ.kind.closeTime = some evJ.exchange_time ∧
    evC2.kind.closeTime = some evC2.exchange_time := by
  refine ⟨exchange_time_matches_embedded_candle.1 now0 [mkCandle 0] 0 evJ ?_,
          exchange_time_matches_embedded_candle.2 (mkRecord 1640995200000) 0 evC2
            (by decide) (by decide) rfl⟩
  have hJ : load_json_market_event_candles now0 [mkCandle 0] 0 = [evJ] := rfl
  rw [hJ]
  exact List.mem_cons_self evJ []

/-! ## C3 -/

/-- C3: for every CSV input containing a row that fails to deserialize into
the 12-field schema (in particular a row with a non-numeric price field),
the whole load fails (`result.unwrap()` aborts) and zero market events are
produced — the load's result is `none`, never a partial feed. -/
theorem csv_bad_row_aborts_whole_load (now : Nat → Int) (rows : List (List String)) (i : Nat)
    (h : ∃ row ∈ rows, deserializeRow row = none) :
    load_csv_market_event_candles now rows i = none := by
  obtain ⟨row, hmem, hrow⟩ := h
  exact load_csv_none_of_mem now row hrow rows i hmem

/-- A well-formed 12-field CSV row. -/
def goodRowW : List String :=
  ["1640995200000", "100.0", "105.0", "95.0", "102.0", "1.5",
   "1640995200000", "0.0", "7", "0.0", "0.0", "0.0"]

/-- A 12-field CSV row whose `open` price field is non-numeric. -/
def badRowW : List String :=
  ["1640995500000", "abc", "105.0", "95.0", "102.0", "1.5",
   "1640995500000", "0.0", "7", "0.0", "0.0", "0.0"]

/-- C3 witness: a two-row input whose second row has the non-numeric price
field `abc`; the whole load yields `none` even though the first row is
valid. -/
theorem csv_bad_row_aborts_whole_load_witness :
    load_csv_market_event_candles now0 [goodRowW, badRowW] 0 = none :=
  csv_bad_row_aborts_whole_load now0 [goodRowW, badRowW] 0
    ⟨badRowW, List.mem_cons_of_mem goodRowW (List.mem_cons_self badRowW []), rfl⟩

/-! ## C4 -/

/-- C4 counterexample: the claim says every record whose `close_time`
millisecond value cannot be represented as a UTC instant makes the
normalization fail.  The record with `close_time = 2^64 - 1000` ms is far
beyond chrono's maximum instant, yet the load succeeds: the wrapping
`as i64` cast turns it into `-1000` and the event is produced with a
pre-epoch `exchange_time` instead of any error. -/
theorem unrepresentable_close_time_cex :
    CHRONO_MAX_MS < ((2 ^ 64 - 1000 : Nat) : Int) ∧
    (loadCsvRecords now0 [mkRecord (2 ^ 64 - 1000)] 0).map
        (List.map MarketEvent.exchange_time) = some [-1000] := ⟨by decide, rfl⟩

/-- C4 (amended): for every record whose `close_time` is below `2^63` (so
the `as i64` cast does not wrap) and above chrono's maximum representable
millisecond instant, the conversion aborts (`unwrap` on
`LocalResult::None`, modelled as `none`) and any load containing the record
produces zero events — the timestamp is never silently clamped.  (The
abort is a panic, not a returned error value; and for values at or above
`2^63` the wrapping cast bypasses the range check, see the
counterexample.) -/
theorem unrepresentable_close_time_aborts_load (now : Nat → Int) (r : BinanceCandle)
    (hlt : r.close_time < 2 ^ 63) (hgt : CHRONO_MAX_MS < (r.close_time : Int)) :
    (∀ t, convertRow r t = none) ∧
    ∀ (records : List BinanceCandle) (i : Nat), r ∈ records →
      loadCsvRecords now records i = none := by
  have hnone : ∀ t, convertRow r t = none := by
    intro t
    have hu : u64_as_i64 r.close_time = (r.close_time : Int) := by
      rw [u64_as_i64, if_pos hlt]
    have hts : timestamp_millis_opt (u64_as_i64 r.close_time) = none := by
      rw [hu, timestamp_millis_opt,
        if_neg (by intro hcon; exact absurd hcon.2 (not_le.mpr hgt))]
    rw [convertRow, hts]
    rfl
  exact ⟨hnone, fun records i hmem => loadCsvRecords_none_of_mem now r hnone records i hmem⟩

/-- C4 witness: the amended theorem at `close_time = 2^63 - 1` ms (below
the wrap threshold, beyond chrono's range): the row's conversion and the
whole load abort with no events. -/
theorem unrepresentable_close_time_aborts_load_witness :
    convertRow (mkRecord (2 ^ 63 - 1)) 0 = none ∧
    loadCsvRecords now0 [mkRecord (2 ^ 63 - 1)] 0 = none := by
  have h := unrepresentable_close_time_aborts_load now0 (mkRecord (2 ^ 63 - 1))
    (by decide) (by decide)
  exact ⟨h.1 0, h.2 [mkRecord (2 ^ 63 - 1)] 0 (List.mem_cons_self _ [])⟩

/-! ## C5 -/

/-- C5: for every (already parsed) JSON candle array, the produced market
event sequence has the same length, and the event at every index carries
`exchange_time` equal to that index's candle `close_time`, unchanged. -/
theorem json_roundtrip_identity (now : Nat → Int) (candles : List Candle) (i : Nat) :
    (load_json_market_event_candles now candles i).length = candles.length ∧
    ∀ j : Nat, ((load_json_market_event_candles now candles i).get? j).map
        MarketEvent.exchange_time = (candles.get? j).map Candle.close_time := by
  induction candles generalizing i with
  | nil => exact ⟨rfl, fun j => by cases j <;> rfl⟩
  | cons c rest ih =>
      refine ⟨?_, ?_⟩
      · rw [load_json_market_event_candles]
        simpa using (ih (i + 1)).1
      · intro j
        cases j with
        | zero => rfl
        | succ j' => exact (ih (i + 1)).2 j'

/-! ## C6 -/

/-- C6: for every decoded 12-field record that normalizes successfully, the
candle's `open`, `high`, `low`, `close`, `volume` equal the record's
same-named fields exactly, `trade_count` equals `number_of_trades`, and the
record's `open_time`, `quote_asset_volume`, both taker-buy volumes, and
`ignore` field have no influence on the produced candle: any record
agreeing on the seven used fields normalizes identically. -/
theorem csv_field_projection (r : BinanceCandle) (c : Candle) (h : r.into = some c) :
    c.«open» = r.«open» ∧ c.high = r.high ∧ c.low = r.low ∧ c.close = r.close ∧
    c.volume = r.volume ∧ c.trade_count = r.number_of_trades ∧
    (∀ r' : BinanceCandle, r'.«open» = r.«open» → r'.high = r.high → r'.low = r.low →
      r'.close = r.close → r'.volume = r.volume → r'.close_time = r.close_time →
      r'.number_of_trades = r.number_of_trades → r'.into = r.into) := by
  have hc := into_eq_some h
  subst hc
  refine ⟨rfl, rfl, rfl, rfl, rfl, rfl, ?_⟩
  intro r' h1 h2 h3 h4 h5 h6 h7
  rw [BinanceCandle.into, h1, h2, h3, h4, h5, h6, h7, BinanceCandle.into]

/-- C6 witness: the projection theorem at the decoded row with
`close_time = 1640995200000`; its candle's trade count equals the row's
`number_of_trades`. -/
theorem csv_field_projection_witness :
    (mkCandle 1640995200000).trade_count = (mkRecord 1640995200000).number_of_trades :=
  (csv_field_projection (mkRecord 1640995200000) (mkCandle 1640995200000) rfl).2.2.2.2.2.1

/-! ## C7 -/

/-- C7 counterexample: the claim says a record sequence sorted by
`close_time` ascending always yields non-decreasing `exchange_time`.  The
sorted input `[close_time = 0, close_time = 2^64 - 1000]` loads
successfully, but the wrapping `as i64` cast sends the second record to
`-1000` ms: the produced exchange times `[0, -1000]` are decreasing. -/
theorem sorted_input_monotone_cex :
    (mkRecord 0).close_time ≤ (mkRecord (2 ^ 64 - 1000)).close_time ∧
    (loadCsvRecords now0 [mkRecord 0, mkRecord (2 ^ 64 - 1000)] 0).map
        (List.map MarketEvent.exchange_time) = some [0, -1000] ∧
    ¬ ((0 : Int) ≤ -1000) := ⟨by decide, rfl, by decide⟩

/-- C7 (amended): for every record sequence sorted by `close_time`
ascending in which every `close_time` is below `2^63` (so no cast wraps),
a successful load yields events with pairwise non-decreasing
`exchange_time`: source order is preserved and the unwrapped conversion is
monotone. -/
theorem sorted_input_yields_monotone_exchange_time (now : Nat → Int)
    (records : List BinanceCandle) (i : Nat) (evs : List (MarketEvent DataKind))
    (hlt : ∀ r ∈ records, r.close_time < 2 ^ 63)
    (hsorted : records.Pairwise (fun a b => a.close_time ≤ b.close_time))
    (h : loadCsvRecords now records i = some evs) :
    evs.Pairwise (fun a b => a.exchange_time ≤ b.exchange_time) := by
  have hmap := loadCsvRecords_map_exchange_time now records i evs h
  have h1 : (records.map fun r => u64_as_i64 r.close_time).Pairwise (· ≤ ·) := by
    rw [List.pairwise_map]
    refine hsorted.imp_of_mem ?_
    intro a b ha hb hab
    have hua : u64_as_i64 a.close_time = (a.close_time : Int) := by
      rw [u64_as_i64, if_pos (hlt a ha)]
    have hub : u64_as_i64 b.close_time = (b.close_time : Int) := by
      rw [u64_as_i64, if_pos (hlt b hb)]
    rw [hua, hub]
    exact_mod_cast hab
  rw [← hmap, List.pairwise_map] at h1
  exact h1

/-- The first event of the C7 witness load (`close_time = 1000` ms). -/
def evC7a : MarketEvent DataKind :=
  { exchange_time := 1000, received_time := 0, exchange := "binance",
    instrument := ⟨"btc", "usdt", .spot⟩, kind := .candle (mkCandle 1000) }

/-- The second event of the C7 witness load (`close_time = 2000` ms). -/
def evC7b : MarketEvent DataKind :=
  { exchange_time := 2000, received_time := 0, exchange := "binance",
    instrument := ⟨"btc", "usdt", .spot⟩, kind := .candle (mkCandle 2000) }

/-- C7 witness: the amended theorem on the sorted wrap-free input
`[close_time = 1000, close_time = 2000]`: the produced events'
exchange times are non-decreasing. -/
theorem sorted_input_yields_monotone_exchange_time_witness :
    [evC7a, evC7b].Pairwise (fun a b => a.exchange_time ≤ b.exchange_time) :=
  sorted_input_yields_monotone_exchange_time now0 [mkRecord 1000, mkRecord 2000] 0
    [evC7a, evC7b] (by decide) (by decide) rfl

/-! ## C8 -/

/-- The feed built from `evs` after `k` pulls: the cursor sits at
`min k evs.length`. -/
theorem afterPulls_new (α : Type) (evs : List α) :
    ∀ k : Nat, (MarketFeed.new evs).afterPulls k = ⟨evs, min k evs.length⟩
  | 0 => by simp [MarketFeed.new, MarketFeed.afterPulls]
  | k + 1 => by
      rw [MarketFeed.afterPulls, afterPulls_new α evs k]
      by_cases hk : k < evs.length
      · have hmin : min k evs.length = k := Nat.min_eq_left (Nat.le_of_lt hk)
        have hg : evs.get? (min k evs.length) = some (evs.get ⟨k, hk⟩) := by
          rw [hmin]; exact List.get?_eq_get hk
        simp only [MarketFeed.pull, hg]
        have h2 : min (k + 1) evs.length = k + 1 := Nat.min_eq_left hk
        rw [hmin, h2]
      · have hlen : evs.length ≤ k := le_of_not_lt hk
        have hmin : min k evs.length = evs.length := Nat.min_eq_right hlen
        have hg : evs.get? (min k evs.length) = none := by
          rw [hmin]; exact List.get?_eq_none.mpr (le_refl _)
        simp only [MarketFeed.pull, hg]
        have h2 : min (k + 1) evs.length = evs.length := Nat.min_eq_right (by omega)
        rw [h2, hmin]

/-- C8: a feed built from `N` events returns them in order on the first `N`
pulls, reports exhaustion on the `(N+1)`-th and every later pull, and the
`Exhausted` state is terminal: pulling from an exhausted feed reports
exhaustion and leaves the state unchanged. -/
theorem historical_feed_exhaustion (α : Type) (evs : List α) (k : Nat) :
    (∀ h : k < evs.length,
        (MarketFeed.new evs).pullAt k = Feed.next (evs.get ⟨k, h⟩)) ∧
    (evs.length ≤ k → (MarketFeed.new evs).pullAt k = Feed.finished) ∧
    (∀ f : MarketFeed α, f.Exhausted → f.pull = (Feed.finished, f)) := by
  refine ⟨?_, ?_, ?_⟩
  · intro h
    rw [MarketFeed.pullAt, afterPulls_new α evs k]
    have hmin : min k evs.length = k := Nat.min_eq_left (Nat.le_of_lt h)
    have hg : evs.get? (min k evs.length) = some (evs.get ⟨k, h⟩) := by
      rw [hmin]; exact List.get?_eq_get h
    simp only [MarketFeed.pull, hg]
  · intro h
    rw [MarketFeed.pullAt, afterPulls_new α evs k]
    have hmin : min k evs.length = evs.length := Nat.min_eq_right h
    have hg : evs.get? (min k evs.length) = none := by
      rw [hmin]; exact List.get?_eq_none.mpr (le_refl _)
    simp only [MarketFeed.pull, hg]
  · intro f hf
    have hg : f.market_events.get? f.cursor = none := List.get?_eq_none.mpr hf
    simp only [MarketFeed.pull, hg]

/-- C8 witness: the feed built from the single event `evC2` yields it on
the first pull and reports exhaustion on the second and third pulls. -/
theorem historical_feed_exhaustion_witness :
    (MarketFeed.new [evC2]).pullAt 0 = Feed.next evC2 ∧
    (MarketFeed.new [evC2]).pullAt 1 = Feed.finished ∧
    (MarketFeed.new [evC2]).pullAt 2 = Feed.finished :=
  ⟨(historical_feed_exhaustion (MarketEvent DataKind) [evC2] 0).1 (by decide),
   (historical_feed_exhaustion (MarketEvent DataKind) [evC2] 1).2.1 (by decide),
   (historical_feed_exhaustion (MarketEvent DataKind) [evC2] 2).2.1 (by decide)⟩

/-! ## C9 -/

/-- C9: the Event Sink Loop performs its observation action exactly once
per delivered event, in delivery order — the trace of performed actions is
index-for-index the handling of the delivered events, one entry per event,
each of the ten variants handled (`handleEvent` is total on the closed
`Event` type) — and the loop returns exactly when the channel is closed and
all buffered events are drained (its trace covers the whole delivery, never
a prefix). -/
theorem sink_loop_observes_each_event_once (events : List Event) :
    (listen_to_engine_events events).length = events.length ∧
    (∀ j : Nat, (listen_to_engine_events events).get? j = (events.get? j).map handleEvent) ∧
    listen_to_engine_events events = events.map handleEvent := by
  induction events with
  | nil => exact ⟨rfl, fun j => by cases j <;> rfl, rfl⟩
  | cons e rest ih =>
      refine ⟨?_, ?_, ?_⟩
      · rw [listen_to_engine_events, List.length_cons, List.length_cons, ih.1]
      · intro j
        cases j with
        | zero => rfl
        | succ j' => exact ih.2.1 j'
      · rw [listen_to_engine_events, List.map_cons, ih.2.2]

/-! ## C10 -/

/-- C10: the CSV record with `close_time = 2^64 - 1000` (at least `2^63`,
representable in the schema's u64 field) does not surface a range error:
the unchecked `as i64` cast wraps it to `-1000`, the load succeeds, and the
produced market event's `exchange_time` predates the Unix epoch — no
upper-range validation of the timestamp is performed. -/
theorem wrapping_cast_no_upper_range_check :
    (2 ^ 63 : Nat) ≤ (mkRecord (2 ^ 64 - 1000)).close_time ∧
    u64_as_i64 (mkRecord (2 ^ 64 - 1000)).close_time = -1000 ∧
    (loadCsvRecords now0 [mkRecord (2 ^ 64 - 1000)] 0).map
        (List.map MarketEvent.exchange_time) = some [-1000] ∧
    (-1000 : Int) < 0 := ⟨by decide, by decide, rfl, by decide⟩

end BarterSpec
